import Mathlib

/-!
# Silent-Face-Anti-Spoofing engine: image normalisation

A shallow embedding of `engine/src/main/cpp/img_process.cpp`
(`ConvertBitmap2Mat`, `Yuv420sp2bgr`, `RotateClockWise90`,
`RotateAntiClockWise90`) together with the ensemble score fusion described for
`Live::Detect`, and the properties established about them.

The OpenCV primitives the code calls (`cv::flip`, `cv::transpose`,
`cv::cvtColor`) are library code; `flip` and `transpose` are embedded by their
documented pixel formulas, the NV21 conversion by the sizes it accepts and
produces, its colour arithmetic being a parameter.
-/

namespace SilentFace

/-! ## cv::Mat -/

/-- A dense 2-D matrix as `cv::Mat` presents it to this code: a row count, a
column count and one element per (row, column) position. -/
structure Mat (α : Type) where
  rows : Nat
  cols : Nat
  px : Fin rows → Fin cols → α

/-- The `cv::Mat::empty()` test: the matrix has no element. -/
def Mat.empty {α : Type} (m : Mat α) : Bool :=
  m.rows == 0 || m.cols == 0

/-- The `cv::Mat::total()` count: the number of elements. -/
def Mat.total {α : Type} (m : Mat α) : Nat :=
  m.rows * m.cols

/-- Element access by plain indices, `none` outside the matrix. -/
def Mat.at? {α : Type} (m : Mat α) (r c : Nat) : Option α :=
  if h : r < m.rows ∧ c < m.cols then some (m.px ⟨r, h.1⟩ ⟨c, h.2⟩) else none

/-- The rows of the matrix, top to bottom, each left to right. -/
def Mat.toLists {α : Type} (m : Mat α) : List (List (Option α)) :=
  (List.range m.rows).map fun r => (List.range m.cols).map fun c => m.at? r c

/-- The `cv::transpose` primitive: `dst(i,j) = src(j,i)`. -/
def transpose {α : Type} (src : Mat α) : Mat α :=
  { rows := src.cols, cols := src.rows, px := fun i j => src.px j i }

/-- The `cv::flip` primitive. `flipCode = 0` flips around the x-axis
(`dst(i,j) = src(rows-1-i, j)`), a positive `flipCode` flips around the y-axis
(`dst(i,j) = src(i, cols-1-j)`), a negative one flips around both. -/
def flip {α : Type} (src : Mat α) (flipCode : Int) : Mat α :=
  { rows := src.rows
    cols := src.cols
    px := fun i j =>
      if flipCode = 0 then src.px i.rev j
      else if flipCode > 0 then src.px i j.rev
      else src.px i.rev j.rev }

/-! ## img_process.cpp -/

/-- The function `RotateAntiClockWise90` (img_process.cpp:107-112). -/
def RotateAntiClockWise90 {α : Type} (image : Mat α) : Mat α :=
  if image.empty then image
  else flip (transpose image) 0

/-- The function `RotateClockWise90` (img_process.cpp:114-119). -/
def RotateClockWise90 {α : Type} (image : Mat α) : Mat α :=
  if image.empty then image
  else flip (transpose image) 1

/-- The `switch (orientation)` statement of `Yuv420sp2bgr`
(img_process.cpp:78-104), acting on the converted image `dst`. -/
def orientationSwitch {α : Type} (orientation : Int) (dst : Mat α) : Mat α :=
  if orientation = 1 then dst
  else if orientation = 2 then flip dst 1
  else if orientation = 3 then flip dst (-1)
  else if orientation = 4 then flip dst 0
  else if orientation = 5 then transpose dst
  else if orientation = 6 then RotateClockWise90 dst
  else if orientation = 7 then transpose (flip dst (-1))
  else if orientation = 8 then RotateAntiClockWise90 dst
  else dst

/-- A pixel of a `CV_8UC3` image in B, G, R channel order. -/
structure Bgr where
  b : Nat
  g : Nat
  r : Nat
deriving DecidableEq, Repr

/-- The C `int` result of an addition: the 32-bit two's complement value. -/
def toInt32 (x : Int) : Int :=
  (x + 2 ^ 31) % 2 ^ 32 - 2 ^ 31

/-- The single-channel view `cv::Mat yuv(height + height / 2, width, CV_8UC1, data)`
(img_process.cpp:73) over the camera buffer; `data k` is the byte at offset `k`
and `/` is C integer division. -/
def yuvView (data : Nat → Nat) (width height : Int) : Mat Nat :=
  { rows := (toInt32 (height + height.tdiv 2)).toNat
    cols := width.toNat
    px := fun i j => data (i.val * width.toNat + j.val) }

/-- The call `dst.create(height, width, CV_8UC3)`: a matrix that already has the
requested size is kept, otherwise a fresh one is allocated. -/
def Mat.create (dst : Mat Bgr) (rows cols : Int) : Mat Bgr :=
  if dst.rows = rows.toNat ∧ dst.cols = cols.toNat then dst
  else { rows := rows.toNat, cols := cols.toNat, px := fun _ _ => ⟨0, 0, 0⟩ }

/-- The OpenCV call `cv::cvtColor(src, dst, cv::COLOR_YUV2BGR_NV21)`. OpenCV raises
a `cv::Exception` (`none`) when the source is empty, when its width is odd or when its
row count is not a multiple of 3; otherwise the destination gets `src.rows * 2 / 3`
rows and `src.cols` columns, whatever it held before, and is filled pixel by pixel.
The colour arithmetic is the parameter `nv21`, which gives the pixel at a position of
the destination from the source. -/
def cvtColorNV21 (nv21 : Mat Nat → Nat → Nat → Bgr) (src : Mat Nat) (_dst : Mat Bgr) :
    Option (Mat Bgr) :=
  if src.empty = true ∨ src.cols % 2 ≠ 0 ∨ src.rows % 3 ≠ 0 then none
  else some
    { rows := src.rows * 2 / 3
      cols := src.cols
      px := fun i j => nv21 src i.val j.val }

/-- The function `Yuv420sp2bgr` (img_process.cpp:72-105). The colour conversion
`cv::cvtColor(yuv, dst, cv::COLOR_YUV2BGR_NV21)` is the parameter `cvtColor`, which
receives the view and the destination created for it and answers `none` when it
raises; the exception then leaves `Yuv420sp2bgr` without an image. -/
def Yuv420sp2bgr (cvtColor : Mat Nat → Mat Bgr → Option (Mat Bgr)) (data : Nat → Nat)
    (width height orientation : Int) (dst : Mat Bgr) : Option (Mat Bgr) :=
  let yuv := yuvView data width height
  let dst := dst.create height width
  match cvtColor yuv dst with
  | none => none
  | some dst => some (orientationSwitch orientation dst)

/-- The record `AndroidBitmapInfo` of the NDK header android/bitmap.h. -/
structure AndroidBitmapInfo where
  width : Nat
  height : Nat
  stride : Nat
  format : Int
  flags : Nat

/-- The NDK constant of the same name (android/bitmap.h). -/
def ANDROID_BITMAP_FORMAT_RGBA_8888 : Int := 1

/-- What the NDK answers for one `jobject bitmap`: the return value and the
record filled in by `AndroidBitmap_getInfo`, the return value of
`AndroidBitmap_lockPixels` and the bytes behind the pointer it hands out. -/
structure Bitmap where
  getInfoRet : Int
  info : AndroidBitmapInfo
  lockPixelsRet : Int
  pixels : Nat → Nat

/-- The observable result of `ConvertBitmap2Mat`: its return value, the image
`out` after the call, and whether `AndroidBitmap_lockPixels` was called. -/
structure ConvertResult where
  ret : Int
  out : Mat Bgr
  lockPixelsCalled : Bool

/-- The 4-channel matrix `cv::Mat img(info.height, info.width, CV_8UC4, pixels,
info.stride)` converted by `cv::cvtColor(img, out, cv::COLOR_RGBA2BGR)`: the
alpha byte is dropped and R, B change places. -/
def rgbaToBgr (info : AndroidBitmapInfo) (pixels : Nat → Nat) : Mat Bgr :=
  { rows := info.height
    cols := info.width
    px := fun i j =>
      let p := i.val * info.stride + 4 * j.val
      { b := pixels (p + 2), g := pixels (p + 1), r := pixels p } }

/-- The function `ConvertBitmap2Mat` (img_process.cpp:10-33). -/
def ConvertBitmap2Mat (bitmap : Bitmap) (out : Mat Bgr) : ConvertResult :=
  let ret := bitmap.getInfoRet
  if ret < 0 then
    { ret := ret, out := out, lockPixelsCalled := false }
  else if bitmap.info.format ≠ ANDROID_BITMAP_FORMAT_RGBA_8888 then
    { ret := -1, out := out, lockPixelsCalled := false }
  else
    let ret := bitmap.lockPixelsRet
    if ret < 0 then
      { ret := ret, out := out, lockPixelsCalled := true }
    else
      { ret := 0, out := rgbaToBgr bitmap.info bitmap.pixels, lockPixelsCalled := true }

/-! ## definition.h and the ensemble scorer -/

/-- The record `FaceBox` (definition.h); a `float` field holds an exact rational. -/
structure FaceBox where
  confidence : ℚ
  x1 : ℚ
  y1 : ℚ
  x2 : ℚ
  y2 : ℚ

/-- The record `ModelConfig` (definition.h); a `float` field holds an exact rational. -/
structure ModelConfig where
  scale : ℚ
  shift_x : ℚ
  shift_y : ℚ
  height : Int
  width : Int
  name : String
  org_resize : Bool

/-- Modelled from the spec: the integer rectangle `CropRect`; in the sources it is
the `cv::Rect` that `Live::CalculateBox` is declared to return (live.h:56), a type
of OpenCV. -/
structure CropRect where
  x : Int
  y : Int
  w : Int
  h : Int

/-- Modelled from the spec: the 2-class probability vector (spoof, live) that a
liveness model returns; live.h only declares the scorer that consumes it. -/
structure ScoreVector where
  pSpoof : ℚ
  pLive : ℚ

/-- Modelled from the spec: the failure of the ensemble scorer when no member
produces a score; live.h has no error type. -/
inductive DetectError where
  | NoUsableModelError
deriving DecidableEq, Repr

/-- Modelled from the spec: one accumulation step of `Live::Detect`, whose body
(live.cpp) is not among the sources. A member whose crop computation fails is
skipped; otherwise its `pLive` is added to the running sum and the count of
scored members grows by one. -/
def accumulate (computeCrop : FaceBox → Int → Int → ModelConfig → Option CropRect)
    (srcWidth srcHeight : Int) (box : FaceBox)
    (acc : ℚ × Nat) (member : ModelConfig × (CropRect → ScoreVector)) : ℚ × Nat :=
  match computeCrop box srcWidth srcHeight member.1 with
  | none => acc
  | some rect => (acc.1 + (member.2 rect).pLive, acc.2 + 1)

/-- Modelled from the spec: `Live::Detect`, whose body (live.cpp) is not among
the sources; only its declaration (live.h:45, live.h:100) is. Following section
4.4 of the specification: for each (config, model) pair the crop rectangle is
computed, a member whose crop fails is skipped, every other member hands its
patch to its model collaborator and the returned `pLive` is accumulated; the
result is the arithmetic mean over the members that produced a score, and
`NoUsableModelError` when none did. The crop computation is the parameter
`computeCrop`; a member is its configuration and its model, which receives the
crop rectangle of the frame. Scores are exact rationals. -/
def Detect (computeCrop : FaceBox → Int → Int → ModelConfig → Option CropRect)
    (srcWidth srcHeight : Int) (box : FaceBox)
    (members : List (ModelConfig × (CropRect → ScoreVector))) : Except DetectError ℚ :=
  let acc := members.foldl (accumulate computeCrop srcWidth srcHeight box) (0, 0)
  if acc.2 = 0 then Except.error DetectError.NoUsableModelError
  else Except.ok (acc.1 / acc.2)

/-- Modelled from the spec: the `pLive` values of the ensemble members that produce a
score (those whose crop computation succeeds), in member order; nothing in the
sources names this list. -/
def scoredPLive (computeCrop : FaceBox → Int → Int → ModelConfig → Option CropRect)
    (srcWidth srcHeight : Int) (box : FaceBox)
    (members : List (ModelConfig × (CropRect → ScoreVector))) : List ℚ :=
  members.filterMap fun member =>
    (computeCrop box srcWidth srcHeight member.1).map fun rect => (member.2 rect).pLive

/-! ## Sample inputs -/

/-- A 2×3 image with six distinct pixels, `0 1 2` over `3 4 5`. -/
def sampleImage : Mat Nat :=
  { rows := 2, cols := 3, px := fun i j => 3 * i.val + j.val }

/-- A 1×1 BGR image. -/
def sampleBgr : Mat Bgr :=
  { rows := 1, cols := 1, px := fun _ _ => { b := 7, g := 8, r := 9 } }

/-- A camera buffer whose byte at offset `k` is `k mod 256`. -/
def sampleData : Nat → Nat :=
  fun k => k % 256

/-- A stand-in for the colour arithmetic of the NV21 conversion: the grey pixel of
the luma byte found at the same position of the view. -/
def sampleNv21 (src : Mat Nat) (i j : Nat) : Bgr :=
  let y := (src.at? i j).getD 0
  { b := y, g := y, r := y }

/-- The NV21 conversion with the grey stand-in for its colour arithmetic. -/
def sampleCvtColor : Mat Nat → Mat Bgr → Option (Mat Bgr) :=
  cvtColorNV21 sampleNv21

/-- A 2×1 bitmap in RGB_565 format (format code 4). -/
def sampleRgb565Bitmap : Bitmap :=
  { getInfoRet := 0
    info := { width := 2, height := 1, stride := 4, format := 4, flags := 0 }
    lockPixelsRet := 0
    pixels := fun k => k }

/-- A 2×1 bitmap in RGBA_8888 format. -/
def sampleRgbaBitmap : Bitmap :=
  { getInfoRet := 0
    info := { width := 2, height := 1, stride := 8, format := 1, flags := 0 }
    lockPixelsRet := 0
    pixels := fun k => k }

/-- A face box in a 640×480 frame. -/
def sampleBox : FaceBox :=
  { confidence := 1, x1 := 100, y1 := 120, x2 := 300, y2 := 360 }

/-- A model configuration with the given scale. -/
def sampleConfig (scale : ℚ) : ModelConfig :=
  { scale := scale, shift_x := 0, shift_y := 0, height := 80, width := 80,
    name := "model", org_resize := false }

/-- A crop computation that fails for a configuration of scale zero and
otherwise answers the box itself. -/
def sampleCrop (_box : FaceBox) (_srcWidth _srcHeight : Int) (config : ModelConfig) :
    Option CropRect :=
  if config.scale = 0 then none else some { x := 100, y := 120, w := 200, h := 240 }

/-- Three ensemble members: the first scores `pLive = 0.8`, the second has no
usable crop, the third scores `pLive = 0.4`. -/
def sampleMembers : List (ModelConfig × (CropRect → ScoreVector)) :=
  [(sampleConfig 4, fun _ => { pSpoof := 0.2, pLive := 0.8 }),
   (sampleConfig 0, fun _ => { pSpoof := 0.5, pLive := 0.5 }),
   (sampleConfig 1, fun _ => { pSpoof := 0.6, pLive := 0.4 })]

/-! ## Auxiliary facts about the OpenCV primitives -/

/-- Flipping twice with the same flip code gives the matrix back. -/
theorem flip_flip {α : Type} (m : Mat α) (c : Int) : flip (flip m c) c = m := by
  cases m
  simp only [flip]
  congr
  funext i j
  split_ifs <;> simp [Fin.rev_rev]

/-- Transposition keeps emptiness. -/
theorem empty_transpose {α : Type} (m : Mat α) : (transpose m).empty = m.empty := by
  simp [Mat.empty, transpose, Bool.or_comm]

/-- Flipping keeps emptiness. -/
theorem empty_flip {α : Type} (m : Mat α) (c : Int) : (flip m c).empty = m.empty := by
  simp [Mat.empty, flip]

/-- On a non-empty image `RotateClockWise90` transposes and then flips around the y-axis. -/
theorem RotateClockWise90_of_nonempty {α : Type} (m : Mat α) (h : m.empty = false) :
    RotateClockWise90 m = flip (transpose m) 1 := by
  simp [RotateClockWise90, h]

/-- On a non-empty image `RotateAntiClockWise90` transposes and then flips around the
x-axis. -/
theorem RotateAntiClockWise90_of_nonempty {α : Type} (m : Mat α) (h : m.empty = false) :
    RotateAntiClockWise90 m = flip (transpose m) 0 := by
  simp [RotateAntiClockWise90, h]

/-- The counter-clockwise rotation undoes the clockwise one. -/
theorem rotate_cw_then_acw {α : Type} (m : Mat α) :
    RotateAntiClockWise90 (RotateClockWise90 m) = m := by
  cases h : m.empty
  · rw [RotateClockWise90_of_nonempty m h,
      RotateAntiClockWise90_of_nonempty _ (by simp [empty_flip, empty_transpose, h])]
    cases m
    simp [flip, transpose, Fin.rev_rev]
  · simp [RotateClockWise90, RotateAntiClockWise90, h]

/-- The clockwise rotation undoes the counter-clockwise one. -/
theorem rotate_acw_then_cw {α : Type} (m : Mat α) :
    RotateClockWise90 (RotateAntiClockWise90 m) = m := by
  cases h : m.empty
  · rw [RotateAntiClockWise90_of_nonempty m h,
      RotateClockWise90_of_nonempty _ (by simp [empty_flip, empty_transpose, h])]
    cases m
    simp [flip, transpose, Fin.rev_rev]
  · simp [RotateClockWise90, RotateAntiClockWise90, h]

/-- The element count of the YUV view when `height + height / 2` fits an `int`. -/
theorem yuvView_total (data : Nat → Nat) (width height : Int)
    (hW : 0 < width) (hH : 0 < height) (hmax : height + height / 2 < 2 ^ 31) :
    ((yuvView data width height).total : Int) = (height + height / 2) * width := by
  have hdiv : height.tdiv 2 = height / 2 := Int.tdiv_eq_ediv (le_of_lt hH) (by norm_num)
  have h0 : 0 ≤ height / 2 := Int.ediv_nonneg (le_of_lt hH) (by norm_num)
  have hwrap : toInt32 (height + height / 2) = height + height / 2 := by
    unfold toInt32
    omega
  simp only [yuvView, Mat.total, hdiv, hwrap, Nat.cast_mul]
  rw [Int.toNat_of_nonneg (by omega), Int.toNat_of_nonneg (le_of_lt hW)]

/-- The accumulation loop of `Detect` adds up the `pLive` values of the scored members
and counts them. -/
theorem foldl_accumulate (computeCrop : FaceBox → Int → Int → ModelConfig → Option CropRect)
    (srcWidth srcHeight : Int) (box : FaceBox)
    (members : List (ModelConfig × (CropRect → ScoreVector))) (acc : ℚ × Nat) :
    members.foldl (accumulate computeCrop srcWidth srcHeight box) acc
      = (acc.1 + (scoredPLive computeCrop srcWidth srcHeight box members).sum,
         acc.2 + (scoredPLive computeCrop srcWidth srcHeight box members).length) := by
  induction members generalizing acc with
  | nil => simp [scoredPLive]
  | cons member rest ih =>
    rw [List.foldl_cons, ih]
    unfold scoredPLive accumulate
    cases h : computeCrop box srcWidth srcHeight member.1 with
    | none => simp [List.filterMap_cons, h]
    | some rect =>
      simp [List.filterMap_cons, h]
      constructor
      · ring
      · omega

/-- A list of values in `[0, 1]` sums to a value between zero and its length. -/
theorem sum_bounds (l : List ℚ) (h : ∀ p ∈ l, 0 ≤ p ∧ p ≤ 1) :
    0 ≤ l.sum ∧ l.sum ≤ l.length := by
  induction l with
  | nil => simp
  | cons p rest ih =>
    have hp := h p (List.mem_cons_self p rest)
    have hr := ih (fun q hq => h q (List.mem_cons_of_mem p hq))
    simp only [List.sum_cons, List.length_cons, Nat.cast_add, Nat.cast_one]
    constructor <;> linarith [hp.1, hp.2, hr.1, hr.2]

/-- When some member scores, `Detect` returns the mean of the scored `pLive` values. -/
theorem Detect_eq_mean (computeCrop : FaceBox → Int → Int → ModelConfig → Option CropRect)
    (srcWidth srcHeight : Int) (box : FaceBox)
    (members : List (ModelConfig × (CropRect → ScoreVector)))
    (h : scoredPLive computeCrop srcWidth srcHeight box members ≠ []) :
    Detect computeCrop srcWidth srcHeight box members
      = Except.ok ((scoredPLive computeCrop srcWidth srcHeight box members).sum
          / (scoredPLive computeCrop srcWidth srcHeight box members).length) := by
  have hlen : (scoredPLive computeCrop srcWidth srcHeight box members).length ≠ 0 := by
    simpa [List.length_eq_zero] using h
  simp [Detect, foldl_accumulate, hlen]

/-! ## Orientation transforms -/

/-- Claim C1: orientation round trip of the transform step of `Yuv420sp2bgr`. For
every image, of any height and width, applying the transform of code 2, of code 3 or
of code 4 twice gives the image back; code 6 followed by code 8 and code 8 followed
by code 6 give the image back; code 5 twice and code 7 twice give the image back.
Equality of matrices is equality of the dimensions and of every pixel. -/
theorem orientation_round_trip {α : Type} (m : Mat α) :
    orientationSwitch 2 (orientationSwitch 2 m) = m ∧
    orientationSwitch 3 (orientationSwitch 3 m) = m ∧
    orientationSwitch 4 (orientationSwitch 4 m) = m ∧
    orientationSwitch 8 (orientationSwitch 6 m) = m ∧
    orientationSwitch 6 (orientationSwitch 8 m) = m ∧
    orientationSwitch 5 (orientationSwitch 5 m) = m ∧
    orientationSwitch 7 (orientationSwitch 7 m) = m := by
  refine ⟨?_, ?_, ?_, ?_, ?_, ?_, ?_⟩
  · simp [orientationSwitch, flip_flip]
  · simp [orientationSwitch, flip_flip]
  · simp [orientationSwitch, flip_flip]
  · simp [orientationSwitch, rotate_cw_then_acw]
  · simp [orientationSwitch, rotate_acw_then_cw]
  · simp [orientationSwitch, transpose]
  · cases m
    simp [orientationSwitch, transpose, flip, Fin.rev_rev]

/-- Claim C3: orientation code 6 is a rotation by 90 degrees clockwise. For every
H×W image `src` (a matrix that holds an image is not `empty()`), the code-6 step is
`RotateClockWise90`, its result has W rows and H columns, and the pixel at row r,
column c of the result is the pixel at row H-1-c, column r of `src`, for every r below
W and c below H. -/
theorem RotateClockWise90_pixels {α : Type} (src : Mat α) (hne : src.empty = false) :
    orientationSwitch 6 src = RotateClockWise90 src ∧
    (RotateClockWise90 src).rows = src.cols ∧
    (RotateClockWise90 src).cols = src.rows ∧
    ∀ r c : Nat, r < src.cols → c < src.rows →
      ∃ p, src.at? (src.rows - 1 - c) r = some p ∧ (RotateClockWise90 src).at? r c = some p := by
  rw [RotateClockWise90_of_nonempty src hne]
  refine ⟨by simp [orientationSwitch, RotateClockWise90, hne], rfl, rfl, ?_⟩
  intro r c hr hc
  have h1 : src.rows - 1 - c < src.rows := by omega
  refine ⟨src.px ⟨src.rows - 1 - c, h1⟩ ⟨r, hr⟩, ?_, ?_⟩
  · simp [Mat.at?, h1, hr]
  · have h2 : src.rows - (c + 1) = src.rows - 1 - c := by omega
    simp [Mat.at?, flip, transpose, hr, hc, Fin.rev, h2]

/-- The sample image `0 1 2` over `3 4 5` is not empty; turned clockwise it has 3 rows
and 2 columns, and its bottom-left pixel is the 5 of the bottom-right corner. -/
theorem RotateClockWise90_pixels_witness :
    sampleImage.empty = false ∧
    (RotateClockWise90 sampleImage).rows = 3 ∧
    (RotateClockWise90 sampleImage).cols = 2 ∧
    ∃ p, sampleImage.at? (2 - 1 - 0) 2 = some p ∧
      (RotateClockWise90 sampleImage).at? 2 0 = some p :=
  ⟨by decide, (RotateClockWise90_pixels sampleImage (by decide)).2.1,
    (RotateClockWise90_pixels sampleImage (by decide)).2.2.1,
    (RotateClockWise90_pixels sampleImage (by decide)).2.2.2 2 0 (by decide) (by decide)⟩

/-- Claim C4: orientation code 8 is a rotation by 90 degrees counter-clockwise. For
every H×W image `src` (a matrix that holds an image is not `empty()`), the code-8 step
is `RotateAntiClockWise90`, its result has W rows and H columns, and the pixel at row
r, column c of the result is the pixel at row c, column W-1-r of `src`, for every r
below W and c below H. -/
theorem RotateAntiClockWise90_pixels {α : Type} (src : Mat α) (hne : src.empty = false) :
    orientationSwitch 8 src = RotateAntiClockWise90 src ∧
    (RotateAntiClockWise90 src).rows = src.cols ∧
    (RotateAntiClockWise90 src).cols = src.rows ∧
    ∀ r c : Nat, r < src.cols → c < src.rows →
      ∃ p, src.at? c (src.cols - 1 - r) = some p ∧
        (RotateAntiClockWise90 src).at? r c = some p := by
  rw [RotateAntiClockWise90_of_nonempty src hne]
  refine ⟨by simp [orientationSwitch, RotateAntiClockWise90, hne], rfl, rfl, ?_⟩
  intro r c hr hc
  have h1 : src.cols - 1 - r < src.cols := by omega
  refine ⟨src.px ⟨c, hc⟩ ⟨src.cols - 1 - r, h1⟩, ?_, ?_⟩
  · simp [Mat.at?, h1, hc]
  · have h2 : src.cols - (r + 1) = src.cols - 1 - r := by omega
    simp [Mat.at?, flip, transpose, hr, hc, Fin.rev, h2]

/-- The sample image turned counter-clockwise has 3 rows and 2 columns, and its
top-left pixel is the pixel of the top-right corner. -/
theorem RotateAntiClockWise90_pixels_witness :
    sampleImage.empty = false ∧
    (RotateAntiClockWise90 sampleImage).rows = 3 ∧
    (RotateAntiClockWise90 sampleImage).cols = 2 ∧
    ∃ p, sampleImage.at? 0 (3 - 1 - 0) = some p ∧
      (RotateAntiClockWise90 sampleImage).at? 0 0 = some p :=
  ⟨by decide, (RotateAntiClockWise90_pixels sampleImage (by decide)).2.1,
    (RotateAntiClockWise90_pixels sampleImage (by decide)).2.2.1,
    (RotateAntiClockWise90_pixels sampleImage (by decide)).2.2.2 0 0 (by decide) (by decide)⟩

/-- Claim C7: an orientation value outside 1..8, such as 0, means no transform. For
every such value `Yuv420sp2bgr` returns the converted image as it is, which is also
its output for orientation code 1. -/
theorem Yuv420sp2bgr_other_orientation (cvtColor : Mat Nat → Mat Bgr → Option (Mat Bgr))
    (data : Nat → Nat) (width height orientation : Int) (dst : Mat Bgr)
    (h : orientation < 1 ∨ 8 < orientation) :
    Yuv420sp2bgr cvtColor data width height orientation dst
        = cvtColor (yuvView data width height) (dst.create height width) ∧
    Yuv420sp2bgr cvtColor data width height orientation dst
        = Yuv420sp2bgr cvtColor data width height 1 dst := by
  have h1 : orientation ≠ 1 := by omega
  have h2 : orientation ≠ 2 := by omega
  have h3 : orientation ≠ 3 := by omega
  have h4 : orientation ≠ 4 := by omega
  have h5 : orientation ≠ 5 := by omega
  have h6 : orientation ≠ 6 := by omega
  have h7 : orientation ≠ 7 := by omega
  have h8 : orientation ≠ 8 := by omega
  simp only [Yuv420sp2bgr, orientationSwitch, h1, h2, h3, h4, h5, h6, h7, h8, if_false, if_true]
  cases cvtColor (yuvView data width height) (dst.create height width) <;> simp

/-- Orientation 0 on a 4×2 frame gives the same image as orientation 1. -/
theorem Yuv420sp2bgr_other_orientation_witness :
    ((0 : Int) < 1 ∨ (8 : Int) < 0) ∧
    Yuv420sp2bgr sampleCvtColor sampleData 4 2 0 sampleBgr
      = Yuv420sp2bgr sampleCvtColor sampleData 4 2 1 sampleBgr :=
  ⟨Or.inl (by decide),
    (Yuv420sp2bgr_other_orientation sampleCvtColor sampleData 4 2 0 sampleBgr
      (Or.inl (by decide))).2⟩

/-! ## Composition table of the orientation codes -/

/-- Row 1 of the composition table of the orientation codes: code 1 followed by
each of the eight codes acts on a non-empty image as a single code. -/
theorem compose_row1 (b : Int) (hb : 1 ≤ b) (hb8 : b ≤ 8) :
    ∃ c : Int, 1 ≤ c ∧ c ≤ 8 ∧ ∀ (α : Type) (m : Mat α), m.empty = false →
      orientationSwitch b (orientationSwitch 1 m) = orientationSwitch c m := by
  interval_cases b
  · refine ⟨1, by decide, by decide, fun α m hne => ?_⟩
    simp only [orientationSwitch, RotateClockWise90_of_nonempty, RotateAntiClockWise90_of_nonempty,
      empty_flip, empty_transpose, hne, reduceIte, Int.reduceEq]
  · refine ⟨2, by decide, by decide, fun α m hne => ?_⟩
    simp only [orientationSwitch, RotateClockWise90_of_nonempty, RotateAntiClockWise90_of_nonempty,
      empty_flip, empty_transpose, hne, reduceIte, Int.reduceEq]
  · refine ⟨3, by decide, by decide, fun α m hne => ?_⟩
    simp only [orientationSwitch, RotateClockWise90_of_nonempty, RotateAntiClockWise90_of_nonempty,
      empty_flip, empty_transpose, hne, reduceIte, Int.reduceEq]
  · refine ⟨4, by decide, by decide, fun α m hne => ?_⟩
    simp only [orientationSwitch, RotateClockWise90_of_nonempty, RotateAntiClockWise90_of_nonempty,
      empty_flip, empty_transpose, hne, reduceIte, Int.reduceEq]
  · refine ⟨5, by decide, by decide, fun α m hne => ?_⟩
    simp only [orientationSwitch, RotateClockWise90_of_nonempty, RotateAntiClockWise90_of_nonempty,
      empty_flip, empty_transpose, hne, reduceIte, Int.reduceEq]
  · refine ⟨6, by decide, by decide, fun α m hne => ?_⟩
    simp only [orientationSwitch, RotateClockWise90_of_nonempty, RotateAntiClockWise90_of_nonempty,
      empty_flip, empty_transpose, hne, reduceIte, Int.reduceEq]
  · refine ⟨7, by decide, by decide, fun α m hne => ?_⟩
    simp only [orientationSwitch, RotateClockWise90_of_nonempty, RotateAntiClockWise90_of_nonempty,
      empty_flip, empty_transpose, hne, reduceIte, Int.reduceEq]
  · refine ⟨8, by decide, by decide, fun α m hne => ?_⟩
    simp only [orientationSwitch, RotateClockWise90_of_nonempty, RotateAntiClockWise90_of_nonempty,
      empty_flip, empty_transpose, hne, reduceIte, Int.reduceEq]

/-- Row 2 of the composition table of the orientation codes: code 2 followed by
each of the eight codes acts on a non-empty image as a single code. -/
theorem compose_row2 (b : Int) (hb : 1 ≤ b) (hb8 : b ≤ 8) :
    ∃ c : Int, 1 ≤ c ∧ c ≤ 8 ∧ ∀ (α : Type) (m : Mat α), m.empty = false →
      orientationSwitch b (orientationSwitch 2 m) = orientationSwitch c m := by
  interval_cases b
  · refine ⟨2, by decide, by decide, fun α m hne => ?_⟩
    simp only [orientationSwitch, RotateClockWise90_of_nonempty, RotateAntiClockWise90_of_nonempty,
      empty_flip, empty_transpose, hne, reduceIte, Int.reduceEq]
  · refine ⟨1, by decide, by decide, fun α m hne => ?_⟩
    simp only [orientationSwitch, RotateClockWise90_of_nonempty, RotateAntiClockWise90_of_nonempty,
      empty_flip, empty_transpose, hne, reduceIte, Int.reduceEq]
    cases m
    simp [flip, transpose, Fin.rev_rev]
  · refine ⟨4, by decide, by decide, fun α m hne => ?_⟩
    simp only [orientationSwitch, RotateClockWise90_of_nonempty, RotateAntiClockWise90_of_nonempty,
      empty_flip, empty_transpose, hne, reduceIte, Int.reduceEq]
    cases m
    simp [flip, transpose, Fin.rev_rev]
  · refine ⟨3, by decide, by decide, fun α m hne => ?_⟩
    simp only [orientationSwitch, RotateClockWise90_of_nonempty, RotateAntiClockWise90_of_nonempty,
      empty_flip, empty_transpose, hne, reduceIte, Int.reduceEq]
    cases m
    simp [flip, transpose, Fin.rev_rev]
  · refine ⟨8, by decide, by decide, fun α m hne => ?_⟩
    simp only [orientationSwitch, RotateClockWise90_of_nonempty, RotateAntiClockWise90_of_nonempty,
      empty_flip, empty_transpose, hne, reduceIte, Int.reduceEq]
    cases m
    simp [flip, transpose, Fin.rev_rev]
  · refine ⟨7, by decide, by decide, fun α m hne => ?_⟩
    simp only [orientationSwitch, RotateClockWise90_of_nonempty, RotateAntiClockWise90_of_nonempty,
      empty_flip, empty_transpose, hne, reduceIte, Int.reduceEq]
    cases m
    simp [flip, transpose, Fin.rev_rev]
  · refine ⟨6, by decide, by decide, fun α m hne => ?_⟩
    simp only [orientationSwitch, RotateClockWise90_of_nonempty, RotateAntiClockWise90_of_nonempty,
      empty_flip, empty_transpose, hne, reduceIte, Int.reduceEq]
    cases m
    simp [flip, transpose, Fin.rev_rev]
  · refine ⟨5, by decide, by decide, fun α m hne => ?_⟩
    simp only [orientationSwitch, RotateClockWise90_of_nonempty, RotateAntiClockWise90_of_nonempty,
      empty_flip, empty_transpose, hne, reduceIte, Int.reduceEq]
    cases m
    simp [flip, transpose, Fin.rev_rev]

/-- Row 3 of the composition table of the orientation codes: code 3 followed by
each of the eight codes acts on a non-empty image as a single code. -/
theorem compose_row3 (b : Int) (hb : 1 ≤ b) (hb8 : b ≤ 8) :
    ∃ c : Int, 1 ≤ c ∧ c ≤ 8 ∧ ∀ (α : Type) (m : Mat α), m.empty = false →
      orientationSwitch b (orientationSwitch 3 m) = orientationSwitch c m := by
  interval_cases b
  · refine ⟨3, by decide, by decide, fun α m hne => ?_⟩
    simp only [orientationSwitch, RotateClockWise90_of_nonempty, RotateAntiClockWise90_of_nonempty,
      empty_flip, empty_transpose, hne, reduceIte, Int.reduceEq]
  · refine ⟨4, by decide, by decide, fun α m hne => ?_⟩
    simp only [orientationSwitch, RotateClockWise90_of_nonempty, RotateAntiClockWise90_of_nonempty,
      empty_flip, empty_transpose, hne, reduceIte, Int.reduceEq]
    cases m
    simp [flip, transpose, Fin.rev_rev]
  · refine ⟨1, by decide, by decide, fun α m hne => ?_⟩
    simp only [orientationSwitch, RotateClockWise90_of_nonempty, RotateAntiClockWise90_of_nonempty,
      empty_flip, empty_transpose, hne, reduceIte, Int.reduceEq]
    cases m
    simp [flip, transpose, Fin.rev_rev]
  · refine ⟨2, by decide, by decide, fun α m hne => ?_⟩
    simp only [orientationSwitch, RotateClockWise90_of_nonempty, RotateAntiClockWise90_of_nonempty,
      empty_flip, empty_transpose, hne, reduceIte, Int.reduceEq]
    cases m
    simp [flip, transpose, Fin.rev_rev]
  · refine ⟨7, by decide, by decide, fun α m hne => ?_⟩
    simp only [orientationSwitch, RotateClockWise90_of_nonempty, RotateAntiClockWise90_of_nonempty,
      empty_flip, empty_transpose, hne, reduceIte, Int.reduceEq]
  · refine ⟨8, by decide, by decide, fun α m hne => ?_⟩
    simp only [orientationSwitch, RotateClockWise90_of_nonempty, RotateAntiClockWise90_of_nonempty,
      empty_flip, empty_transpose, hne, reduceIte, Int.reduceEq]
    cases m
    simp [flip, transpose, Fin.rev_rev]
  · refine ⟨5, by decide, by decide, fun α m hne => ?_⟩
    simp only [orientationSwitch, RotateClockWise90_of_nonempty, RotateAntiClockWise90_of_nonempty,
      empty_flip, empty_transpose, hne, reduceIte, Int.reduceEq]
    cases m
    simp [flip, transpose, Fin.rev_rev]
  · refine ⟨6, by decide, by decide, fun α m hne => ?_⟩
    simp only [orientationSwitch, RotateClockWise90_of_nonempty, RotateAntiClockWise90_of_nonempty,
      empty_flip, empty_transpose, hne, reduceIte, Int.reduceEq]
    cases m
    simp [flip, transpose, Fin.rev_rev]

/-- Row 4 of the composition table of the orientation codes: code 4 followed by
each of the eight codes acts on a non-empty image as a single code. -/
theorem compose_row4 (b : Int) (hb : 1 ≤ b) (hb8 : b ≤ 8) :
    ∃ c : Int, 1 ≤ c ∧ c ≤ 8 ∧ ∀ (α : Type) (m : Mat α), m.empty = false →
      orientationSwitch b (orientationSwitch 4 m) = orientationSwitch c m := by
  interval_cases b
  · refine ⟨4, by decide, by decide, fun α m hne => ?_⟩
    simp only [orientationSwitch, RotateClockWise90_of_nonempty, RotateAntiClockWise90_of_nonempty,
      empty_flip, empty_transpose, hne, reduceIte, Int.reduceEq]
  · refine ⟨3, by decide, by decide, fun α m hne => ?_⟩
    simp only [orientationSwitch, RotateClockWise90_of_nonempty, RotateAntiClockWise90_of_nonempty,
      empty_flip, empty_transpose, hne, reduceIte, Int.reduceEq]
    cases m
    simp [flip, transpose, Fin.rev_rev]
  · refine ⟨2, by decide, by decide, fun α m hne => ?_⟩
    simp only [orientationSwitch, RotateClockWise90_of_nonempty, RotateAntiClockWise90_of_nonempty,
      empty_flip, empty_transpose, hne, reduceIte, Int.reduceEq]
    cases m
    simp [flip, transpose, Fin.rev_rev]
  · refine ⟨1, by decide, by decide, fun α m hne => ?_⟩
    simp only [orientationSwitch, RotateClockWise90_of_nonempty, RotateAntiClockWise90_of_nonempty,
      empty_flip, empty_transpose, hne, reduceIte, Int.reduceEq]
    cases m
    simp [flip, transpose, Fin.rev_rev]
  · refine ⟨6, by decide, by decide, fun α m hne => ?_⟩
    simp only [orientationSwitch, RotateClockWise90_of_nonempty, RotateAntiClockWise90_of_nonempty,
      empty_flip, empty_transpose, hne, reduceIte, Int.reduceEq]
    cases m
    simp [flip, transpose, Fin.rev_rev]
  · refine ⟨5, by decide, by decide, fun α m hne => ?_⟩
    simp only [orientationSwitch, RotateClockWise90_of_nonempty, RotateAntiClockWise90_of_nonempty,
      empty_flip, empty_transpose, hne, reduceIte, Int.reduceEq]
    cases m
    simp [flip, transpose, Fin.rev_rev]
  · refine ⟨8, by decide, by decide, fun α m hne => ?_⟩
    simp only [orientationSwitch, RotateClockWise90_of_nonempty, RotateAntiClockWise90_of_nonempty,
      empty_flip, empty_transpose, hne, reduceIte, Int.reduceEq]
    cases m
    simp [flip, transpose, Fin.rev_rev]
  · refine ⟨7, by decide, by decide, fun α m hne => ?_⟩
    simp only [orientationSwitch, RotateClockWise90_of_nonempty, RotateAntiClockWise90_of_nonempty,
      empty_flip, empty_transpose, hne, reduceIte, Int.reduceEq]
    cases m
    simp [flip, transpose, Fin.rev_rev]

/-- Row 5 of the composition table of the orientation codes: code 5 followed by
each of the eight codes acts on a non-empty image as a single code. -/
theorem compose_row5 (b : Int) (hb : 1 ≤ b) (hb8 : b ≤ 8) :
    ∃ c : Int, 1 ≤ c ∧ c ≤ 8 ∧ ∀ (α : Type) (m : Mat α), m.empty = false →
      orientationSwitch b (orientationSwitch 5 m) = orientationSwitch c m := by
  interval_cases b
  · refine ⟨5, by decide, by decide, fun α m hne => ?_⟩
    simp only [orientationSwitch, RotateClockWise90_of_nonempty, RotateAntiClockWise90_of_nonempty,
      empty_flip, empty_transpose, hne, reduceIte, Int.reduceEq]
  · refine ⟨6, by decide, by decide, fun α m hne => ?_⟩
    simp only [orientationSwitch, RotateClockWise90_of_nonempty, RotateAntiClockWise90_of_nonempty,
      empty_flip, empty_transpose, hne, reduceIte, Int.reduceEq]
  · refine ⟨7, by decide, by decide, fun α m hne => ?_⟩
    simp only [orientationSwitch, RotateClockWise90_of_nonempty, RotateAntiClockWise90_of_nonempty,
      empty_flip, empty_transpose, hne, reduceIte, Int.reduceEq]
    cases m
    simp [flip, transpose, Fin.rev_rev]
  · refine ⟨8, by decide, by decide, fun α m hne => ?_⟩
    simp only [orientationSwitch, RotateClockWise90_of_nonempty, RotateAntiClockWise90_of_nonempty,
      empty_flip, empty_transpose, hne, reduceIte, Int.reduceEq]
  · refine ⟨1, by decide, by decide, fun α m hne => ?_⟩
    simp only [orientationSwitch, RotateClockWise90_of_nonempty, RotateAntiClockWise90_of_nonempty,
      empty_flip, empty_transpose, hne, reduceIte, Int.reduceEq]
    cases m
    simp [flip, transpose, Fin.rev_rev]
  · refine ⟨2, by decide, by decide, fun α m hne => ?_⟩
    simp only [orientationSwitch, RotateClockWise90_of_nonempty, RotateAntiClockWise90_of_nonempty,
      empty_flip, empty_transpose, hne, reduceIte, Int.reduceEq]
    cases m
    simp [flip, transpose, Fin.rev_rev]
  · refine ⟨3, by decide, by decide, fun α m hne => ?_⟩
    simp only [orientationSwitch, RotateClockWise90_of_nonempty, RotateAntiClockWise90_of_nonempty,
      empty_flip, empty_transpose, hne, reduceIte, Int.reduceEq]
    cases m
    simp [flip, transpose, Fin.rev_rev]
  · refine ⟨4, by decide, by decide, fun α m hne => ?_⟩
    simp only [orientationSwitch, RotateClockWise90_of_nonempty, RotateAntiClockWise90_of_nonempty,
      empty_flip, empty_transpose, hne, reduceIte, Int.reduceEq]
    cases m
    simp [flip, transpose, Fin.rev_rev]

/-- Row 6 of the composition table of the orientation codes: code 6 followed by
each of the eight codes acts on a non-empty image as a single code. -/
theorem compose_row6 (b : Int) (hb : 1 ≤ b) (hb8 : b ≤ 8) :
    ∃ c : Int, 1 ≤ c ∧ c ≤ 8 ∧ ∀ (α : Type) (m : Mat α), m.empty = false →
      orientationSwitch b (orientationSwitch 6 m) = orientationSwitch c m := by
  interval_cases b
  · refine ⟨6, by decide, by decide, fun α m hne => ?_⟩
    simp only [orientationSwitch, RotateClockWise90_of_nonempty, RotateAntiClockWise90_of_nonempty,
      empty_flip, empty_transpose, hne, reduceIte, Int.reduceEq]
  · refine ⟨5, by decide, by decide, fun α m hne => ?_⟩
    simp only [orientationSwitch, RotateClockWise90_of_nonempty, RotateAntiClockWise90_of_nonempty,
      empty_flip, empty_transpose, hne, reduceIte, Int.reduceEq]
    cases m
    simp [flip, transpose, Fin.rev_rev]
  · refine ⟨8, by decide, by decide, fun α m hne => ?_⟩
    simp only [orientationSwitch, RotateClockWise90_of_nonempty, RotateAntiClockWise90_of_nonempty,
      empty_flip, empty_transpose, hne, reduceIte, Int.reduceEq]
    cases m
    simp [flip, transpose, Fin.rev_rev]
  · refine ⟨7, by decide, by decide, fun α m hne => ?_⟩
    simp only [orientationSwitch, RotateClockWise90_of_nonempty, RotateAntiClockWise90_of_nonempty,
      empty_flip, empty_transpose, hne, reduceIte, Int.reduceEq]
    cases m
    simp [flip, transpose, Fin.rev_rev]
  · refine ⟨4, by decide, by decide, fun α m hne => ?_⟩
    simp only [orientationSwitch, RotateClockWise90_of_nonempty, RotateAntiClockWise90_of_nonempty,
      empty_flip, empty_transpose, hne, reduceIte, Int.reduceEq]
    cases m
    simp [flip, transpose, Fin.rev_rev]
  · refine ⟨3, by decide, by decide, fun α m hne => ?_⟩
    simp only [orientationSwitch, RotateClockWise90_of_nonempty, RotateAntiClockWise90_of_nonempty,
      empty_flip, empty_transpose, hne, reduceIte, Int.reduceEq]
    cases m
    simp [flip, transpose, Fin.rev_rev]
  · refine ⟨2, by decide, by decide, fun α m hne => ?_⟩
    simp only [orientationSwitch, RotateClockWise90_of_nonempty, RotateAntiClockWise90_of_nonempty,
      empty_flip, empty_transpose, hne, reduceIte, Int.reduceEq]
    cases m
    simp [flip, transpose, Fin.rev_rev]
  · refine ⟨1, by decide, by decide, fun α m hne => ?_⟩
    simp only [orientationSwitch, RotateClockWise90_of_nonempty, RotateAntiClockWise90_of_nonempty,
      empty_flip, empty_transpose, hne, reduceIte, Int.reduceEq]
    cases m
    simp [flip, transpose, Fin.rev_rev]

/-- Row 7 of the composition table of the orientation codes: code 7 followed by
each of the eight codes acts on a non-empty image as a single code. -/
theorem compose_row7 (b : Int) (hb : 1 ≤ b) (hb8 : b ≤ 8) :
    ∃ c : Int, 1 ≤ c ∧ c ≤ 8 ∧ ∀ (α : Type) (m : Mat α), m.empty = false →
      orientationSwitch b (orientationSwitch 7 m) = orientationSwitch c m := by
  interval_cases b
  · refine ⟨7, by decide, by decide, fun α m hne => ?_⟩
    simp only [orientationSwitch, RotateClockWise90_of_nonempty, RotateAntiClockWise90_of_nonempty,
      empty_flip, empty_transpose, hne, reduceIte, Int.reduceEq]
  · refine ⟨8, by decide, by decide, fun α m hne => ?_⟩
    simp only [orientationSwitch, RotateClockWise90_of_nonempty, RotateAntiClockWise90_of_nonempty,
      empty_flip, empty_transpose, hne, reduceIte, Int.reduceEq]
    cases m
    simp [flip, transpose, Fin.rev_rev]
  · refine ⟨5, by decide, by decide, fun α m hne => ?_⟩
    simp only [orientationSwitch, RotateClockWise90_of_nonempty, RotateAntiClockWise90_of_nonempty,
      empty_flip, empty_transpose, hne, reduceIte, Int.reduceEq]
    cases m
    simp [flip, transpose, Fin.rev_rev]
  · refine ⟨6, by decide, by decide, fun α m hne => ?_⟩
    simp only [orientationSwitch, RotateClockWise90_of_nonempty, RotateAntiClockWise90_of_nonempty,
      empty_flip, empty_transpose, hne, reduceIte, Int.reduceEq]
    cases m
    simp [flip, transpose, Fin.rev_rev]
  · refine ⟨3, by decide, by decide, fun α m hne => ?_⟩
    simp only [orientationSwitch, RotateClockWise90_of_nonempty, RotateAntiClockWise90_of_nonempty,
      empty_flip, empty_transpose, hne, reduceIte, Int.reduceEq]
    cases m
    simp [flip, transpose, Fin.rev_rev]
  · refine ⟨4, by decide, by decide, fun α m hne => ?_⟩
    simp only [orientationSwitch, RotateClockWise90_of_nonempty, RotateAntiClockWise90_of_nonempty,
      empty_flip, empty_transpose, hne, reduceIte, Int.reduceEq]
    cases m
    simp [flip, transpose, Fin.rev_rev]
  · refine ⟨1, by decide, by decide, fun α m hne => ?_⟩
    simp only [orientationSwitch, RotateClockWise90_of_nonempty, RotateAntiClockWise90_of_nonempty,
      empty_flip, empty_transpose, hne, reduceIte, Int.reduceEq]
    cases m
    simp [flip, transpose, Fin.rev_rev]
  · refine ⟨2, by decide, by decide, fun α m hne => ?_⟩
    simp only [orientationSwitch, RotateClockWise90_of_nonempty, RotateAntiClockWise90_of_nonempty,
      empty_flip, empty_transpose, hne, reduceIte, Int.reduceEq]
    cases m
    simp [flip, transpose, Fin.rev_rev]

/-- Row 8 of the composition table of the orientation codes: code 8 followed by
each of the eight codes acts on a non-empty image as a single code. -/
theorem compose_row8 (b : Int) (hb : 1 ≤ b) (hb8 : b ≤ 8) :
    ∃ c : Int, 1 ≤ c ∧ c ≤ 8 ∧ ∀ (α : Type) (m : Mat α), m.empty = false →
      orientationSwitch b (orientationSwitch 8 m) = orientationSwitch c m := by
  interval_cases b
  · refine ⟨8, by decide, by decide, fun α m hne => ?_⟩
    simp only [orientationSwitch, RotateClockWise90_of_nonempty, RotateAntiClockWise90_of_nonempty,
      empty_flip, empty_transpose, hne, reduceIte, Int.reduceEq]
  · refine ⟨7, by decide, by decide, fun α m hne => ?_⟩
    simp only [orientationSwitch, RotateClockWise90_of_nonempty, RotateAntiClockWise90_of_nonempty,
      empty_flip, empty_transpose, hne, reduceIte, Int.reduceEq]
    cases m
    simp [flip, transpose, Fin.rev_rev]
  · refine ⟨6, by decide, by decide, fun α m hne => ?_⟩
    simp only [orientationSwitch, RotateClockWise90_of_nonempty, RotateAntiClockWise90_of_nonempty,
      empty_flip, empty_transpose, hne, reduceIte, Int.reduceEq]
    cases m
    simp [flip, transpose, Fin.rev_rev]
  · refine ⟨5, by decide, by decide, fun α m hne => ?_⟩
    simp only [orientationSwitch, RotateClockWise90_of_nonempty, RotateAntiClockWise90_of_nonempty,
      empty_flip, empty_transpose, hne, reduceIte, Int.reduceEq]
    cases m
    simp [flip, transpose, Fin.rev_rev]
  · refine ⟨2, by decide, by decide, fun α m hne => ?_⟩
    simp only [orientationSwitch, RotateClockWise90_of_nonempty, RotateAntiClockWise90_of_nonempty,
      empty_flip, empty_transpose, hne, reduceIte, Int.reduceEq]
    cases m
    simp [flip, transpose, Fin.rev_rev]
  · refine ⟨1, by decide, by decide, fun α m hne => ?_⟩
    simp only [orientationSwitch, RotateClockWise90_of_nonempty, RotateAntiClockWise90_of_nonempty,
      empty_flip, empty_transpose, hne, reduceIte, Int.reduceEq]
    cases m
    simp [flip, transpose, Fin.rev_rev]
  · refine ⟨4, by decide, by decide, fun α m hne => ?_⟩
    simp only [orientationSwitch, RotateClockWise90_of_nonempty, RotateAntiClockWise90_of_nonempty,
      empty_flip, empty_transpose, hne, reduceIte, Int.reduceEq]
    cases m
    simp [flip, transpose, Fin.rev_rev]
  · refine ⟨3, by decide, by decide, fun α m hne => ?_⟩
    simp only [orientationSwitch, RotateClockWise90_of_nonempty, RotateAntiClockWise90_of_nonempty,
      empty_flip, empty_transpose, hne, reduceIte, Int.reduceEq]
    cases m
    simp [flip, transpose, Fin.rev_rev]

/-! ## Bitmap input -/

/-- Claim C5: `ConvertBitmap2Mat` rejects every bitmap that is not RGBA_8888. When the
info query succeeds (its return value is not negative) and the format is not
`ANDROID_BITMAP_FORMAT_RGBA_8888`, the function returns -1, does not call
`AndroidBitmap_lockPixels` and leaves `out` as it was; and it returns 0 only when the
info query succeeded, the format is RGBA_8888 and the pixel lock succeeded. -/
theorem ConvertBitmap2Mat_rejects_other_formats (bitmap : Bitmap) (out : Mat Bgr) :
    (0 ≤ bitmap.getInfoRet → bitmap.info.format ≠ ANDROID_BITMAP_FORMAT_RGBA_8888 →
      (ConvertBitmap2Mat bitmap out).ret = -1 ∧
      (ConvertBitmap2Mat bitmap out).lockPixelsCalled = false ∧
      (ConvertBitmap2Mat bitmap out).out = out) ∧
    ((ConvertBitmap2Mat bitmap out).ret = 0 →
      0 ≤ bitmap.getInfoRet ∧
      bitmap.info.format = ANDROID_BITMAP_FORMAT_RGBA_8888 ∧
      0 ≤ bitmap.lockPixelsRet) := by
  constructor
  · intro hinfo hfmt
    have h1 : ¬ bitmap.getInfoRet < 0 := not_lt.mpr hinfo
    simp [ConvertBitmap2Mat, h1, hfmt]
  · intro hret
    unfold ConvertBitmap2Mat at hret
    simp only at hret
    split_ifs at hret with h1 h2 h3
    · simp only at hret
      omega
    · simp at hret
    · simp only at hret
      omega
    · exact ⟨not_lt.mp h1, not_not.mp h2, not_lt.mp h3⟩

/-- An RGB_565 bitmap is answered with -1, no pixel lock and an untouched `out`; an
RGBA_8888 bitmap whose two NDK calls succeed is answered with 0. -/
theorem ConvertBitmap2Mat_rejects_other_formats_witness :
    (0 ≤ sampleRgb565Bitmap.getInfoRet ∧
      sampleRgb565Bitmap.info.format ≠ ANDROID_BITMAP_FORMAT_RGBA_8888 ∧
      (ConvertBitmap2Mat sampleRgb565Bitmap sampleBgr).ret = -1 ∧
      (ConvertBitmap2Mat sampleRgb565Bitmap sampleBgr).lockPixelsCalled = false ∧
      (ConvertBitmap2Mat sampleRgb565Bitmap sampleBgr).out = sampleBgr) ∧
    ((ConvertBitmap2Mat sampleRgbaBitmap sampleBgr).ret = 0 ∧
      0 ≤ sampleRgbaBitmap.getInfoRet ∧
      sampleRgbaBitmap.info.format = ANDROID_BITMAP_FORMAT_RGBA_8888 ∧
      0 ≤ sampleRgbaBitmap.lockPixelsRet) :=
  ⟨⟨by decide, by decide,
      (ConvertBitmap2Mat_rejects_other_formats sampleRgb565Bitmap sampleBgr).1
        (by decide) (by decide)⟩,
    ⟨by decide,
      (ConvertBitmap2Mat_rejects_other_formats sampleRgbaBitmap sampleBgr).2 (by decide)⟩⟩

/-! ## Size of the YUV view -/

/-- Claim C6 as stated fails: for width 2 and height 3 the view that `Yuv420sp2bgr`
builds has `(3 + 3 / 2) * 2 = 8` elements, not `3 * 1.5 * 2 = 9`. -/
theorem yuvView_total_odd_height :
    ¬ (((yuvView sampleData 2 3).total : ℚ) = (3 : ℚ) * 1.5 * (2 : ℚ)) := by
  have h : (yuvView sampleData 2 3).total = 8 := by decide
  rw [h]
  norm_num

/-- Claim C6, amended: for every positive width and positive height with
`height + height / 2` in the range of `int`, the view that `Yuv420sp2bgr` builds has
`(height + height / 2) * width` elements with integer division; that is exactly
`height * 1.5 * width` when the height is even, and half a row less when it is odd. -/
theorem yuvView_total_even_height (data : Nat → Nat) (width height : Int)
    (hW : 0 < width) (hH : 0 < height) (hmax : height + height / 2 < 2 ^ 31) :
    ((yuvView data width height).total : Int) = (height + height / 2) * width ∧
    (height % 2 = 0 →
      ((yuvView data width height).total : ℚ) = (height : ℚ) * 1.5 * (width : ℚ)) ∧
    (height % 2 = 1 →
      ((yuvView data width height).total : ℚ)
        = (height : ℚ) * 1.5 * (width : ℚ) - (width : ℚ) / 2) := by
  have ht := yuvView_total data width height hW hH hmax
  have hq : ((yuvView data width height).total : ℚ)
      = ((height + height / 2 : Int) : ℚ) * (width : ℚ) := by
    have := congrArg (fun z : Int => (z : ℚ)) ht
    simpa using this
  refine ⟨ht, ?_, ?_⟩
  · intro hev
    obtain ⟨k, hk⟩ : ∃ k, height = 2 * k := ⟨height / 2, by omega⟩
    have hk2 : height / 2 = k := by omega
    rw [hq, hk2, hk]
    push_cast
    ring
  · intro hodd
    obtain ⟨k, hk⟩ : ∃ k, height = 2 * k + 1 := ⟨height / 2, by omega⟩
    have hk2 : height / 2 = k := by omega
    rw [hq, hk2, hk]
    push_cast
    ring

/-- A 4×2 frame (width 4, height 2) is viewed as `2 * 1.5 * 4 = 12` bytes. -/
theorem yuvView_total_even_height_witness :
    (0 : Int) < 4 ∧ (0 : Int) < 2 ∧ (2 : Int) + 2 / 2 < 2 ^ 31 ∧ (2 : Int) % 2 = 0 ∧
    ((yuvView sampleData 4 2).total : ℚ) = ((2 : Int) : ℚ) * 1.5 * ((4 : Int) : ℚ) :=
  ⟨by decide, by decide, by decide, by decide,
    (yuvView_total_even_height sampleData 4 2 (by decide) (by decide) (by decide)).2.1
      (by decide)⟩

/-! ## Ensemble score fusion -/

/-- Claim C9: mean fusion of the ensemble scorer. Whenever at least one member
produces a score, `Detect` returns the sum of the `pLive` values of the members that
produced a score divided by the number of those members; two scored members with
`pLive` 0.8 and 0.4 give 0.6; and when every scored `pLive` lies in [0, 1], so does the
fused score. -/
theorem Detect_mean_fusion
    (computeCrop : FaceBox → Int → Int → ModelConfig → Option CropRect)
    (srcWidth srcHeight : Int) (box : FaceBox)
    (members : List (ModelConfig × (CropRect → ScoreVector)))
    (hne : scoredPLive computeCrop srcWidth srcHeight box members ≠ []) :
    Detect computeCrop srcWidth srcHeight box members
      = Except.ok ((scoredPLive computeCrop srcWidth srcHeight box members).sum
          / (scoredPLive computeCrop srcWidth srcHeight box members).length) ∧
    (scoredPLive computeCrop srcWidth srcHeight box members = [0.8, 0.4] →
      Detect computeCrop srcWidth srcHeight box members = Except.ok 0.6) ∧
    ((∀ p ∈ scoredPLive computeCrop srcWidth srcHeight box members, 0 ≤ p ∧ p ≤ 1) →
      ∃ score, Detect computeCrop srcWidth srcHeight box members = Except.ok score ∧
        0 ≤ score ∧ score ≤ 1) := by
  have hmean := Detect_eq_mean computeCrop srcWidth srcHeight box members hne
  refine ⟨hmean, ?_, ?_⟩
  · intro hl
    rw [hmean, hl]
    norm_num
  · intro hb
    refine ⟨_, hmean, ?_, ?_⟩
    · exact div_nonneg (sum_bounds _ hb).1 (Nat.cast_nonneg _)
    · have hpos : (0 : ℚ) < (scoredPLive computeCrop srcWidth srcHeight box members).length := by
        have : (scoredPLive computeCrop srcWidth srcHeight box members).length ≠ 0 := by
          simpa [List.length_eq_zero] using hne
        exact_mod_cast Nat.pos_of_ne_zero this
      rw [div_le_one hpos]
      exact (sum_bounds _ hb).2

/-- Three configured members of which the second has no usable crop: the scored
`pLive` values are 0.8 and 0.4 and the fused score is 0.6, the mean over two members,
not over three. -/
theorem Detect_mean_fusion_witness :
    scoredPLive sampleCrop 640 480 sampleBox sampleMembers ≠ [] ∧
    scoredPLive sampleCrop 640 480 sampleBox sampleMembers = [0.8, 0.4] ∧
    Detect sampleCrop 640 480 sampleBox sampleMembers = Except.ok 0.6 :=
  have hs : scoredPLive sampleCrop 640 480 sampleBox sampleMembers = [0.8, 0.4] := by
    simp [scoredPLive, sampleMembers, sampleCrop, sampleConfig]
  ⟨by rw [hs]; simp, hs,
    (Detect_mean_fusion sampleCrop 640 480 sampleBox sampleMembers (by rw [hs]; simp)).2.1 hs⟩

/-! ## The orientation codes as a group -/

/-- Claim C10: the eight orientation transforms of `Yuv420sp2bgr` form the dihedral
group D4. For every pair of codes a, b in 1..8 there is a code c in 1..8 such that on
every image (a matrix that is not `empty()`) the transform of a followed by the
transform of b gives the same image as the transform of c; and the eight transforms are pairwise distinct: on the
2×3 image with six distinct pixels the eight outputs are all different. -/
theorem orientation_codes_closed_and_distinct :
    (∀ a b : Int, 1 ≤ a → a ≤ 8 → 1 ≤ b → b ≤ 8 →
      ∃ c : Int, 1 ≤ c ∧ c ≤ 8 ∧ ∀ (α : Type) (m : Mat α), m.empty = false →
        orientationSwitch b (orientationSwitch a m) = orientationSwitch c m) ∧
    (sampleImage.rows = 2 ∧ sampleImage.cols = 3 ∧
      ∀ a b : Int, 1 ≤ a → a ≤ 8 → 1 ≤ b → b ≤ 8 → a ≠ b →
        orientationSwitch a sampleImage ≠ orientationSwitch b sampleImage) := by
  constructor
  · intro a b ha ha8 hb hb8
    interval_cases a
    · exact compose_row1 b hb hb8
    · exact compose_row2 b hb hb8
    · exact compose_row3 b hb hb8
    · exact compose_row4 b hb hb8
    · exact compose_row5 b hb hb8
    · exact compose_row6 b hb hb8
    · exact compose_row7 b hb hb8
    · exact compose_row8 b hb hb8
  · refine ⟨rfl, rfl, ?_⟩
    intro a b ha ha8 hb hb8 hab
    interval_cases a <;> interval_cases b <;>
      first
      | exact absurd rfl hab
      | exact fun h => absurd (congrArg Mat.toLists h) (by decide)

/-- Code 6 twice on the sample image is a single code of 1..8, and codes 1 and 5 give
different images of it. -/
theorem orientation_codes_closed_and_distinct_witness :
    (∃ c : Int, 1 ≤ c ∧ c ≤ 8 ∧
      orientationSwitch 6 (orientationSwitch 6 sampleImage) = orientationSwitch c sampleImage) ∧
    orientationSwitch 1 sampleImage ≠ orientationSwitch 5 sampleImage :=
  ⟨(orientation_codes_closed_and_distinct.1 6 6
      (by decide) (by decide) (by decide) (by decide)).elim
      fun c hc => ⟨c, hc.1, hc.2.1, hc.2.2 Nat sampleImage (by decide)⟩,
    orientation_codes_closed_and_distinct.2.2.2 1 5
      (by decide) (by decide) (by decide) (by decide) (by decide)⟩

end SilentFace
